import Mathlib

/-!
Verification development for `src/scan_junk_mail.py`.

The file shallowly embeds the program's data model and operations:

* `FreqMap` models the `defaultdict(int)` frequency map `email_count`
  (association list with insertion-order append, lookup defaulting to 0).
* `extract_email_addresses` models the Python function of the same name:
  `re.findall` of the fixed pattern
  `\b[A-Za-z0-9._%+-]+@[A-Za-z0-9.-]+\.[A-Z|a-z]{2,}\b`
  over the input text.  The matcher below implements exactly the
  backtracking semantics of this one pattern (leftmost, non-overlapping
  matches; greedy `+`/`{2,}` with backtracking; `\b` word boundaries with
  word characters = ASCII alphanumerics and underscore).
* `procItem`, `scanLoop`, `scan_junk_mail` model the per-item body and the
  `while True` paging/retry loop of `scan_junk_mail` (lines 54-124).
* `Disk`, `pyMain` model the startup/persistence behaviour of `main`
  (lines 139-205): checkpoint loading and the final writes/cleanup.
-/

set_option maxRecDepth 4000

namespace JunkScan

/-- Frequency map: `defaultdict(int)` keyed by address strings.
Represented as an association list in insertion order; `get` of a missing
key is `0`, like `defaultdict(int)` lookup. -/
abbrev FreqMap := List (String × Nat)

/-- Dictionary lookup with default 0, as `defaultdict(int)` behaves. -/
def FreqMap.get : FreqMap → String → Nat
  | [], _ => 0
  | (k', v) :: rest, k => if k' = k then v else FreqMap.get rest k

/-- `email_count[key] += 1`: bump the entry if present, else insert it at
the end (Python dicts keep insertion order; keys are never duplicated). -/
def FreqMap.incr : FreqMap → String → FreqMap
  | [], k => [(k, 1)]
  | (k', v) :: rest, k =>
      if k' = k then (k', v + 1) :: rest else (k', v) :: FreqMap.incr rest k

/-- Python `str.lower()` restricted to the ASCII texts the scanner handles:
lowercase each character. -/
def pyLower (s : String) : String := String.mk (s.data.map Char.toLower)

/-- Word characters for the regex `\b` assertion: `[A-Za-z0-9_]`. -/
def isWordChar (c : Char) : Bool := c.isAlphanum || c == '_'

/-- Word-ness of an optional character; out-of-range counts as non-word. -/
def wordness : Option Char → Bool
  | none => false
  | some c => isWordChar c

/-- The local-part character class `[A-Za-z0-9._%+-]`. -/
def isLocalChar (c : Char) : Bool :=
  c.isAlphanum || c == '.' || c == '_' || c == '%' || c == '+' || c == '-'

/-- The domain character class `[A-Za-z0-9.-]`. -/
def isDomainChar (c : Char) : Bool := c.isAlphanum || c == '.' || c == '-'

/-- The final-label character class `[A-Z|a-z]` of the source pattern.
Note that this class literally contains the pipe character `|`. -/
def isTldChar (c : Char) : Bool := c.isAlpha || c == '|'

/-- Backtracking for `[A-Z|a-z]{2,}\b` at the start of `u`: try the
candidate length `n` (at most the maximal run of final-label characters),
then shorter ones, down to 2; succeed at the first length whose end sits on
a word boundary.  Returns the matched length. -/
def tldTry (u : List Char) : Nat → Option Nat
  | 0 => none
  | n + 1 =>
      if n + 1 < 2 then none
      else if wordness (u.get? n) != wordness (u.get? (n + 1)) then some (n + 1)
      else tldTry u n

/-- Backtracking for `[A-Za-z0-9.-]+\.[A-Z|a-z]{2,}\b` on `r`: the greedy
`+` consumes `d` characters then requires a literal dot at index `d`; try
dot indices `n, n-1, ..., 1`.  Returns the dot index and the final-label
length. -/
def dotsTry (r : List Char) : Nat → Option (Nat × Nat)
  | 0 => none
  | n + 1 =>
      match (if r.get? (n + 1) == some '.' then
               (tldTry (r.drop (n + 2))
                 ((r.drop (n + 2)).takeWhile isTldChar).length).map
                 (fun j => (n + 1, j))
             else none) with
      | some dj => some dj
      | none => dotsTry r n

/-- Try to match the whole pattern at the current position (`cs` is the
remaining text, `prev` the character before it, for the leading `\b`).
On success returns the matched characters and the rest of the text. -/
def matchHere (prev : Option Char) (cs : List Char) :
    Option (List Char × List Char) :=
  match cs with
  | [] => none
  | c :: _ =>
    if wordness prev == wordness (some c) then none
    else
      let lrun := cs.takeWhile isLocalChar
      if lrun.isEmpty then none
      else
        match cs.drop lrun.length with
        | a :: r =>
          if a = '@' then
            match dotsTry r ((r.takeWhile isDomainChar).length) with
            | some (d, j) =>
              some (lrun ++ '@' :: (r.take d ++ '.' :: (r.drop (d + 1)).take j),
                    ((r.drop (d + 1)).drop j))
            | none => none
          else none
        | [] => none

/-- The `re.findall` scan: at each position try a match; on success emit it
and continue after it, otherwise advance one character.  `fuel` bounds the
recursion (each step consumes at least one character). -/
def findallAux : Nat → Option Char → List Char → List (List Char)
  | 0, _, _ => []
  | _ + 1, _, [] => []
  | fuel + 1, prev, c :: cs =>
      match matchHere prev (c :: cs) with
      | some (m, rest) => m :: findallAux fuel (some (m.getLastD c)) rest
      | none => findallAux fuel (some c) cs

/-- `extract_email_addresses(text)` (lines 19-26): all matches of the email
pattern in the text, in order of appearance. -/
def extract_email_addresses (text : String) : List String :=
  (findallAux (text.data.length + 1) none text.data).map String.mk

/-- The sender field of a fetched item, as the per-item body (lines 79-93)
observes it.
* `absent`: no sender / falsy `email_address` — the counting block is
  skipped, `processed += 1` still runs.
* `ok s`: `item.sender.email_address` is the (non-empty) string `s`.
* `malformed`: accessing the sender data raises, so the `except` branch
  (line 91) fires: the item is skipped via `continue`. -/
inductive Sender
  | absent
  | ok (addr : String)
  | malformed
deriving DecidableEq

/-- The loop-local mutable state of `scan_junk_mail`:
`email_count`, `new_emails`, `processed` (lines 54-55). -/
structure ScanState where
  email_count : FreqMap
  new_emails : List String
  processed : Nat
deriving DecidableEq

/-- `new_emails.add(key)`: set insertion (idempotent). -/
def addNew (l : List String) (s : String) : List String :=
  if s ∈ l then l else l ++ [s]

/-- The body of `for item in items` (lines 79-93).  On a `malformed` item
the exception is caught before `processed += 1`, so the cursor does not
advance for it; otherwise the sender (if any) is lowercased and counted and
the cursor advances by one. -/
def procItem (st : ScanState) : Sender → ScanState
  | .absent => { st with processed := st.processed + 1 }
  | .ok s =>
      let key := pyLower s
      let ec := st.email_count.incr key
      let ne := if ec.get key = 1 then addNew st.new_emails key else st.new_emails
      { email_count := ec, new_emails := ne, processed := st.processed + 1 }
  | .malformed => st

/-- Processing one fetched page of items, in order. -/
def procItems (st : ScanState) (items : List Sender) : ScanState :=
  items.foldl procItem st

/-- Outcome of one fetch attempt
`list(junk_folder.all().only('sender').order_by(...)[processed:processed+batch_size])`:
the slice is returned (`ok`), the server raises `ErrorServerBusy` (`busy`),
or some other exception is raised (`fatal`). -/
inductive FetchOutcome
  | ok
  | busy
  | fatal
deriving DecidableEq

/-- How the `while True` loop of `scan_junk_mail` terminates:
`natural` (empty slice, line 75-77), `gaveUp` (line 108-111) or `fatal`
(line 118-121). -/
inductive ExitReason
  | natural
  | gaveUp
  | fatal
deriving DecidableEq

/-- Result of the scan loop: final state, the list of `save_progress`
snapshots `(email_count, processed)` written in order, and how the loop
exited. -/
structure ScanResult where
  final : ScanState
  saves : List (FreqMap × Nat)
  exit : ExitReason
deriving DecidableEq

/-- `max_retries = 5` (line 57). -/
def max_retries : Nat := 5

/-- The `while True` loop of `scan_junk_mail` (lines 67-121).  The folder
is the fixed, stably ordered item sequence; `sched t` is the outcome of the
`t`-th fetch attempt (the environment: server busy / other failure /
success).  `fuel` bounds the recursion; `none` means the bound was hit.

Faithful points: a fetch slices `folder[processed : processed+batch_size]`;
an empty slice breaks out (natural end, no save); after a fetched page the
state is advanced by `procItem` per item, then `save_progress` runs iff
`processed % (batch_size * 2) == 0`; `retries` resets to 0 after a
successful non-empty page; on `ErrorServerBusy` `retries` increments and
the loop gives up (saving progress) once `retries > max_retries`; on any
other exception progress is saved and the loop breaks. -/
def scanLoop (folder : List Sender) (batch_size : Nat)
    (sched : Nat → FetchOutcome) :
    Nat → Nat → ScanState → Nat → List (FreqMap × Nat) → Option ScanResult
  | 0, _, _, _, _ => none
  | fuel + 1, t, st, retries, saves =>
      match sched t with
      | .ok =>
          let items := (folder.drop st.processed).take batch_size
          if items.isEmpty then some ⟨st, saves, .natural⟩
          else
            let st' := procItems st items
            let saves' :=
              if st'.processed % (batch_size * 2) = 0 then
                saves ++ [(st'.email_count, st'.processed)]
              else saves
            scanLoop folder batch_size sched fuel (t + 1) st' 0 saves'
      | .busy =>
          if retries + 1 > max_retries then
            some ⟨st, saves ++ [(st.email_count, st.processed)], .gaveUp⟩
          else
            scanLoop folder batch_size sched fuel (t + 1) st (retries + 1) saves
      | .fatal =>
          some ⟨st, saves ++ [(st.email_count, st.processed)], .fatal⟩

/-- `scan_junk_mail(email_address, password, email_count, server, batch_size)`
(lines 29-124), abstracting the connection boilerplate: the loop starts
with the caller-supplied `email_count` dict, `new_emails = set()`,
`processed = 0` and `retries = 0`.  Note that the starting cursor is the
constant 0 (line 55) — it is not a parameter of the function. -/
def scan_junk_mail (email_count : FreqMap) (folder : List Sender)
    (sched : Nat → FetchOutcome) (fuel : Nat) (batch_size : Nat) :
    Option ScanResult :=
  scanLoop folder batch_size sched fuel 0 ⟨email_count, [], 0⟩ 0 []

/-- The caller's view of the `email_count` dict after `scan_junk_mail`
returns.  The function mutates the dict passed as its `email_count`
argument in place (`email_count[...] += 1`, line 85) and never copies it,
so after the call the caller's object holds the engine's final map. -/
def callerMapAfterScan (baseline : FreqMap) (folder : List Sender)
    (sched : Nat → FetchOutcome) (fuel : Nat) (batch_size : Nat) :
    Option FreqMap :=
  (scan_junk_mail baseline folder sched fuel batch_size).map
    (fun r => r.final.email_count)

/-- The persistent files `main` touches: the checkpoint
`junk_email_addresses_progress.json` (as its `email_count` and `processed`
fields; the timestamp is irrelevant to the claims) and the historical
results file `junk_email_addresses.json`.  `none` = file absent. -/
structure Disk where
  progress : Option (FreqMap × Nat)
  results : Option FreqMap
deriving DecidableEq

/-- An unhandled exception escaping `main`. -/
inductive MainError
  | fileNotFound
deriving DecidableEq

/-- The post-scan tail of `main` (lines 170-205): run the scan from cursor
0, let each `save_progress` overwrite the checkpoint file, then overwrite
`junk_email_addresses.json` with the final map and remove the checkpoint
file if it exists.  Returns the final disk together with the final map and
new-address set, or `none` if the scan fuel ran out. -/
def mainScanAndFinish (disk : Disk) (ec0 : FreqMap) (folder : List Sender)
    (sched : Nat → FetchOutcome) (fuel : Nat) :
    Option (Disk × FreqMap × List String) :=
  match scan_junk_mail ec0 folder sched fuel 100 with
  | none => none
  | some res =>
      let d1 : Disk :=
        match res.saves.getLast? with
        | some s => { disk with progress := some s }
        | none => disk
      let d2 : Disk := { d1 with results := some res.final.email_count }
      let d3 : Disk := { d2 with progress := none }
      some (d3, res.final.email_count, res.final.new_emails)

/-- `main()` (lines 139-205).  Baseline loading (lines 156-167): if the
checkpoint file exists, seed `email_count` from its `email_count` field —
its `processed` field is only interpolated into a log line, never passed to
`scan_junk_mail`; otherwise open `junk_email_addresses.json`, whose absence
raises an unhandled `FileNotFoundError`.  Then scan (with `batch_size=100`)
and write/clean up the files.  Report printing is a pure side effect and is
not modelled. -/
def pyMain (disk : Disk) (folder : List Sender)
    (sched : Nat → FetchOutcome) (fuel : Nat) :
    Except MainError (Option (Disk × FreqMap × List String)) :=
  match disk.progress with
  | some (ec0, _processedLoggedOnly) =>
      .ok (mainScanAndFinish disk ec0 folder sched fuel)
  | none =>
      match disk.results with
      | some hist => .ok (mainScanAndFinish disk hist folder sched fuel)
      | none => .error .fileNotFound

/-- Whether processing the item increments the map at key `k`. -/
def keyMatches (it : Sender) (k : String) : Bool :=
  match it with
  | .ok s => decide (pyLower s = k)
  | _ => false

/-- The shape every extracted string actually has, read off the pattern
`\b[A-Za-z0-9._%+-]+@[A-Za-z0-9.-]+\.[A-Z|a-z]{2,}\b`: a non-empty
local part of `[A-Za-z0-9._%+-]`, an `@`, a non-empty domain part of
`[A-Za-z0-9.-]`, a dot, and a final label of 2 or more characters from the
class `[A-Z|a-z]` — which contains the literal pipe character, so the
final label is made of letters and `|`, not of letters only. -/
def EmailShape (m : List Char) : Prop :=
  ∃ l d t, m = l ++ '@' :: (d ++ '.' :: t) ∧ l ≠ [] ∧ (∀ c ∈ l, isLocalChar c)
    ∧ d ≠ [] ∧ (∀ c ∈ d, isDomainChar c) ∧ 2 ≤ t.length ∧ ∀ c ∈ t, isTldChar c

/-- The shape the claim asserts for every extracted string: some split
`local@domain.tld` with a non-empty local part of letters/digits/`._%+-`,
a non-empty domain of letters/digits/`.-`, and a final label (everything
after the last dot) of 2 or more ALPHABETIC characters only.  Stated as an
executable check over all split points so it can be evaluated on concrete
strings. -/
def specShapeAlpha (m : List Char) : Bool :=
  (List.range m.length).any (fun i =>
    (List.range m.length).any (fun j =>
      m.get? i == some '@' && m.get? j == some '.' &&
      decide (1 ≤ i) && decide (i + 1 < j) && decide (j + 3 ≤ m.length) &&
      (m.take i).all isLocalChar &&
      ((m.drop (i + 1)).take (j - (i + 1))).all isDomainChar &&
      (m.drop (j + 1)).all Char.isAlpha))

/-!  Concrete fixtures and result projections used by the claim theorems. -/

/-- Environment where every fetch attempt succeeds. -/
def allOk : Nat → FetchOutcome := fun _ => FetchOutcome.ok

/-- Environment where every fetch attempt raises `ErrorServerBusy`. -/
def allBusy : Nat → FetchOutcome := fun _ => FetchOutcome.busy

/-- Environment where every fetch attempt raises a non-busy exception. -/
def allFatal : Nat → FetchOutcome := fun _ => FetchOutcome.fatal

/-- A stable 400-item junk folder, every item from the same sender. -/
def folder400 : List Sender := List.replicate 400 (Sender.ok ("a@x.com"))

/-- A stable 250-item junk folder, every item from the same sender. -/
def folder250 : List Sender := List.replicate 250 (Sender.ok ("a@x.com"))

/-- Environment for the 250-item scenario: the second fetch attempt (the
first attempt at items 100-199) raises `ErrorServerBusy`, every other
attempt succeeds. -/
def schedC6 : Nat → FetchOutcome :=
  fun t => if t = 1 then FetchOutcome.busy else FetchOutcome.ok

/-- Environment raising `ErrorServerBusy` on the first five fetch attempts
and succeeding afterwards. -/
def busyFive : Nat → FetchOutcome :=
  fun t => if t < 5 then FetchOutcome.busy else FetchOutcome.ok

/-- A three-item folder whose middle item raises during per-item
processing. -/
def folderMal : List Sender :=
  [Sender.ok ("a@x.com"), Sender.malformed, Sender.ok ("b@x.com")]

/-- The final `email_count` value at key `k` of a completed `main` run. -/
def mainFinalCount
    (r : Except MainError (Option (Disk × FreqMap × List String)))
    (k : String) : Option Nat :=
  match r with
  | .ok (some (_, ec, _)) => some (ec.get k)
  | _ => none

/-- The checkpoint file contents on disk when `main` exits. -/
def mainFinalProgress
    (r : Except MainError (Option (Disk × FreqMap × List String))) :
    Option (Option (FreqMap × Nat)) :=
  match r with
  | .ok (some (d, _, _)) => some d.progress
  | _ => none

/-!  Helper lemmas about the frequency map and the accumulation step. -/

/-- `incr` bumps exactly the incremented key, by one. -/
theorem FreqMap.get_incr (m : FreqMap) (key k : String) :
    FreqMap.get (FreqMap.incr m key) k
      = FreqMap.get m k + (if key = k then 1 else 0) := by
  induction m with
  | nil =>
      by_cases h : key = k <;> simp [FreqMap.incr, FreqMap.get, h]
  | cons hd rest ih =>
      obtain ⟨k', v⟩ := hd
      by_cases h1 : k' = key
      · subst h1
        by_cases h2 : k' = k
        · subst h2
          simp [FreqMap.incr, FreqMap.get]
        · simp [FreqMap.incr, FreqMap.get, h2]
      · by_cases h2 : k' = k
        · subst h2
          have h3 : ¬ key = k' := fun h => h1 h.symm
          simp [FreqMap.incr, FreqMap.get, h1, h3]
        · simp [FreqMap.incr, FreqMap.get, h1, h2, ih]

/-- Effect of one item on one key of the frequency map. -/
theorem procItem_count (st : ScanState) (it : Sender) (k : String) :
    (procItem st it).email_count.get k
      = st.email_count.get k + (if keyMatches it k then 1 else 0) := by
  cases it with
  | absent => simp [procItem, keyMatches]
  | malformed => simp [procItem, keyMatches]
  | ok s =>
      simp only [procItem]
      rw [FreqMap.get_incr]
      by_cases h : pyLower s = k <;> simp [keyMatches, h]

/-- Effect of one fetched page on one key of the frequency map. -/
theorem procItems_count (items : List Sender) (st : ScanState) (k : String) :
    (procItems st items).email_count.get k
      = st.email_count.get k + items.countP (fun it => keyMatches it k) := by
  induction items generalizing st with
  | nil => simp [procItems]
  | cons it rest ih =>
      have hstep : procItems st (it :: rest) = procItems (procItem st it) rest := by
        simp [procItems]
      rw [hstep, ih (procItem st it), procItem_count, List.countP_cons]
      by_cases h : keyMatches it k
      · simp only [h, if_pos]
        omega
      · simp only [h, Bool.false_eq_true, if_neg, not_false_eq_true]
        omega

/-- Any completed run of the scan loop turns the starting map into the
starting map plus the counts of some list of consumed items: the loop only
ever accumulates on top of the state it was given. -/
theorem scanLoop_consumed (folder : List Sender) (bs : Nat)
    (sched : Nat → FetchOutcome) :
    ∀ (fuel t : Nat) (st : ScanState) (retries : Nat)
      (saves : List (FreqMap × Nat)) (res : ScanResult),
      scanLoop folder bs sched fuel t st retries saves = some res →
      ∃ consumed : List Sender, ∀ k,
        res.final.email_count.get k
          = st.email_count.get k + consumed.countP (fun it => keyMatches it k) := by
  intro fuel
  induction fuel with
  | zero =>
      intro t st retries saves res h
      simp [scanLoop] at h
  | succ f ih =>
      intro t st retries saves res h
      rw [scanLoop] at h
      cases hs : sched t with
      | ok =>
          rw [hs] at h
          by_cases he : ((folder.drop st.processed).take bs).isEmpty
          · simp only [he, if_pos] at h
            obtain rfl : (⟨st, saves, .natural⟩ : ScanResult) = res :=
              Option.some.inj h
            exact ⟨[], fun k => by simp⟩
          · simp only [he, if_neg, Bool.false_eq_true, not_false_eq_true] at h
            obtain ⟨consumed, hc⟩ := ih _ _ _ _ _ h
            refine ⟨(folder.drop st.processed).take bs ++ consumed, fun k => ?_⟩
            rw [List.countP_append, hc k, procItems_count]
            omega
      | busy =>
          rw [hs] at h
          by_cases hr : retries + 1 > max_retries
          · simp only [hr, if_pos] at h
            obtain rfl : (⟨st, saves ++ [(st.email_count, st.processed)], .gaveUp⟩
                : ScanResult) = res := Option.some.inj h
            exact ⟨[], fun k => by simp⟩
          · simp only [hr, if_neg, not_false_eq_true] at h
            obtain ⟨consumed, hc⟩ := ih _ _ _ _ _ h
            exact ⟨consumed, hc⟩
      | fatal =>
          rw [hs] at h
          obtain rfl : (⟨st, saves ++ [(st.email_count, st.processed)], .fatal⟩
              : ScanResult) = res := Option.some.inj h
          exact ⟨[], fun k => by simp⟩

/-- One transient failure with retry budget left: the loop keeps the state
and cursor, bumps the retry counter and tries again. -/
theorem scanLoop_busy_step (folder : List Sender) (bs : Nat)
    (sched : Nat → FetchOutcome) (f t : Nat) (st : ScanState) (retries : Nat)
    (saves : List (FreqMap × Nat)) (hb : sched t = .busy)
    (hr : retries + 1 ≤ max_retries) :
    scanLoop folder bs sched (f + 1) t st retries saves
      = scanLoop folder bs sched f (t + 1) st (retries + 1) saves := by
  rw [scanLoop, hb]
  have : ¬ retries + 1 > max_retries := by omega
  rw [if_neg this]

/-- One transient failure past the retry budget: the loop saves progress
and gives up, leaving state and cursor unchanged. -/
theorem scanLoop_busy_giveup (folder : List Sender) (bs : Nat)
    (sched : Nat → FetchOutcome) (f t : Nat) (st : ScanState) (retries : Nat)
    (saves : List (FreqMap × Nat)) (hb : sched t = .busy)
    (hr : max_retries < retries + 1) :
    scanLoop folder bs sched (f + 1) t st retries saves
      = some ⟨st, saves ++ [(st.email_count, st.processed)], .gaveUp⟩ := by
  rw [scanLoop, hb]
  have : retries + 1 > max_retries := hr
  rw [if_pos this]

/-- A streak of `n` consecutive transient failures within the retry budget
just advances the attempt index and the retry counter. -/
theorem scanLoop_busy_streak (folder : List Sender) (bs : Nat)
    (sched : Nat → FetchOutcome) :
    ∀ (n f t : Nat) (st : ScanState) (retries : Nat)
      (saves : List (FreqMap × Nat)),
      (∀ i, i < n → sched (t + i) = .busy) → retries + n ≤ max_retries →
      scanLoop folder bs sched (f + n) t st retries saves
        = scanLoop folder bs sched f (t + n) st (retries + n) saves := by
  intro n
  induction n with
  | zero => intro f t st retries saves _ _; simp
  | succ m ih =>
      intro f t st retries saves hb hr
      have h0 : sched t = .busy := by simpa using hb 0 (by omega)
      have hf : f + (m + 1) = (f + m) + 1 := by omega
      rw [hf, scanLoop_busy_step folder bs sched (f + m) t st retries saves h0
        (by omega)]
      have hshift : ∀ i, i < m → sched (t + 1 + i) = .busy := by
        intro i hi
        have := hb (i + 1) (by omega)
        rwa [show t + (i + 1) = t + 1 + i by omega] at this
      rw [ih f (t + 1) st (retries + 1) saves hshift (by omega)]
      rw [show t + 1 + m = t + (m + 1) by omega,
        show retries + 1 + m = retries + (m + 1) by omega]

/-!  Lemmas about the email-pattern matcher. -/

/-- `takeWhile` never returns more elements than its input has. -/
theorem takeWhile_length_le (p : Char → Bool) (l : List Char) :
    (l.takeWhile p).length ≤ l.length := by
  induction l with
  | nil => simp
  | cons a tl ih =>
      by_cases h : p a
      · simp only [List.takeWhile_cons, h, if_pos, List.length_cons]
        omega
      · simp [List.takeWhile_cons, h]

/-- Every element of `l.take d` satisfies `p` as long as `d` stays within
the maximal `p`-run at the front of `l`. -/
theorem all_take_of_le_takeWhile (p : Char → Bool) :
    ∀ (l : List Char) (d : Nat), d ≤ (l.takeWhile p).length →
      ∀ c ∈ l.take d, p c := by
  intro l
  induction l with
  | nil =>
      intro d _ c hc
      simp at hc
  | cons hd tl ih =>
      intro d hdl c hc
      cases d with
      | zero => simp at hc
      | succ m =>
          by_cases hp : p hd
          · simp only [List.takeWhile_cons, hp, if_pos, List.length_cons] at hdl
            rw [List.take_succ_cons] at hc
            rcases List.mem_cons.mp hc with rfl | hc'
            · exact hp
            · exact ih m (by omega) c hc'
          · simp [List.takeWhile_cons, hp] at hdl

/-- A successful `tldTry` returns a final-label length between 2 and the
bound it started from. -/
theorem tldTry_spec (u : List Char) :
    ∀ (n j : Nat), tldTry u n = some j → 2 ≤ j ∧ j ≤ n := by
  intro n
  induction n with
  | zero =>
      intro j h
      simp [tldTry] at h
  | succ m ih =>
      intro j h
      by_cases h2 : m + 1 < 2
      · simp [tldTry, h2] at h
      · by_cases hb : wordness (u.get? m) != wordness (u.get? (m + 1))
        · rw [tldTry, if_neg h2, if_pos hb] at h
          obtain rfl : m + 1 = j := Option.some.inj h
          omega
        · rw [tldTry, if_neg h2, if_neg hb] at h
          obtain ⟨hj1, hj2⟩ := ih j h
          omega

/-- A successful `dotsTry` returns a dot position `d` in `[1, n]` that
really holds a dot, together with a successful final-label match right
after it. -/
theorem dotsTry_spec (r : List Char) :
    ∀ (n d j : Nat), dotsTry r n = some (d, j) →
      1 ≤ d ∧ d ≤ n ∧ r.get? d = some '.' ∧
        tldTry (r.drop (d + 1)) (((r.drop (d + 1)).takeWhile isTldChar).length)
          = some j := by
  intro n
  induction n with
  | zero =>
      intro d j h
      simp [dotsTry] at h
  | succ m ih =>
      intro d j h
      rw [dotsTry] at h
      by_cases hdot : r.get? (m + 1) == some '.'
      · rw [if_pos hdot] at h
        cases htld : tldTry (r.drop (m + 1 + 1))
            (((r.drop (m + 1 + 1)).takeWhile isTldChar).length) with
        | none =>
            rw [show m + 2 = m + 1 + 1 from rfl, htld] at h
            simp only [Option.map_none'] at h
            obtain ⟨h1, h2, h3, h4⟩ := ih d j h
            exact ⟨h1, by omega, h3, h4⟩
        | some j' =>
            rw [show m + 2 = m + 1 + 1 from rfl, htld] at h
            simp only [Option.map_some'] at h
            obtain ⟨rfl, rfl⟩ : m + 1 = d ∧ j' = j := by
              have := Option.some.inj h
              exact ⟨congrArg Prod.fst this, congrArg Prod.snd this⟩
            exact ⟨by omega, by omega, eq_of_beq hdot, htld⟩
      · rw [if_neg hdot] at h
        obtain ⟨h1, h2, h3, h4⟩ := ih d j h
        exact ⟨h1, by omega, h3, h4⟩

/-- Everything `matchHere` matches has the real email shape. -/
theorem matchHere_shape (prev : Option Char) (cs : List Char)
    (m rest : List Char) (h : matchHere prev cs = some (m, rest)) :
    EmailShape m := by
  cases cs with
  | nil => simp [matchHere] at h
  | cons c cs' =>
      simp only [matchHere] at h
      by_cases hb : wordness prev == wordness (some c)
      · rw [if_pos hb] at h
        simp at h
      · rw [if_neg hb] at h
        by_cases hle : ((c :: cs').takeWhile isLocalChar).isEmpty
        · rw [if_pos hle] at h
          simp at h
        · rw [if_neg hle] at h
          cases hdrop : (c :: cs').drop ((c :: cs').takeWhile isLocalChar).length with
          | nil =>
              rw [hdrop] at h
              simp at h
          | cons a r =>
              rw [hdrop] at h
              dsimp only at h
              by_cases ha : a = '@'
              · rw [if_pos ha] at h
                subst ha
                cases hd : dotsTry r ((r.takeWhile isDomainChar).length) with
                | none =>
                    rw [hd] at h
                    simp at h
                | some dj =>
                    obtain ⟨d, j⟩ := dj
                    rw [hd] at h
                    obtain ⟨hm, _⟩ : ((c :: cs').takeWhile isLocalChar) ++
                        '@' :: (r.take d ++ '.' :: (r.drop (d + 1)).take j) = m ∧
                        ((r.drop (d + 1)).drop j) = rest := by
                      have := Option.some.inj h
                      exact ⟨congrArg Prod.fst this, congrArg Prod.snd this⟩
                    obtain ⟨hd1, hd2, hd3, hd4⟩ :=
                      dotsTry_spec r ((r.takeWhile isDomainChar).length) d j hd
                    obtain ⟨hj1, hj2⟩ := tldTry_spec (r.drop (d + 1))
                      (((r.drop (d + 1)).takeWhile isTldChar).length) j hd4
                    have hdlen : d < r.length := (List.get?_eq_some.mp hd3).1
                    refine ⟨(c :: cs').takeWhile isLocalChar, r.take d,
                      (r.drop (d + 1)).take j, hm.symm ▸ rfl, ?_, ?_, ?_, ?_, ?_, ?_⟩
                    · intro hnil
                      rw [hnil] at hle
                      exact hle rfl
                    · intro x hx
                      exact List.mem_takeWhile_imp hx
                    · apply List.ne_nil_of_length_pos
                      rw [List.length_take]
                      omega
                    · intro x hx
                      exact all_take_of_le_takeWhile isDomainChar r d hd2 x hx
                    · rw [List.length_take]
                      have := takeWhile_length_le isTldChar (r.drop (d + 1))
                      omega
                    · intro x hx
                      exact all_take_of_le_takeWhile isTldChar (r.drop (d + 1))
                        j hj2 x hx
              · rw [if_neg ha] at h
                simp at h

/-- Everything the findall scan emits has the real email shape. -/
theorem findallAux_shape :
    ∀ (fuel : Nat) (prev : Option Char) (cs : List Char) (m : List Char),
      m ∈ findallAux fuel prev cs → EmailShape m := by
  intro fuel
  induction fuel with
  | zero =>
      intro prev cs m h
      simp [findallAux] at h
  | succ f ih =>
      intro prev cs m h
      cases cs with
      | nil => simp [findallAux] at h
      | cons c cs' =>
          rw [findallAux] at h
          cases hm : matchHere prev (c :: cs') with
          | none =>
              rw [hm] at h
              exact ih _ _ _ h
          | some pr =>
              obtain ⟨mm, rest⟩ := pr
              rw [hm] at h
              rcases List.mem_cons.mp h with rfl | h'
              · exact matchHere_shape _ _ _ _ hm
              · exact ih _ _ _ h'

/-!  Claim theorems. -/

/-- C1: the claim says resuming from a saved checkpoint initializes the
cursor from the checkpoint and reproduces the uninterrupted run's final
FrequencyMap.  The code does not: `main` reads the checkpoint's
`processed` field only for a log line and `scan_junk_mail` always starts
at `processed = 0`, so a resumed run re-counts every item before the
checkpoint.  Evaluation at the failing input: a 400-item folder of one
sender; the uninterrupted run saves checkpoint `(count 200, cursor 200)`
and ends with count 400, but resuming from exactly that checkpoint ends
with count 600, not 400. -/
theorem C1_resume_restarts_at_zero :
    (scan_junk_mail [] folder400 allOk 20 100).map (fun r => r.saves)
      = some [([(("a@x.com"), 200)], 200), ([(("a@x.com"), 400)], 400)]
    ∧ mainFinalCount (pyMain ⟨none, some []⟩ folder400 allOk 20) ("a@x.com")
      = some 400
    ∧ mainFinalCount
        (pyMain ⟨some ([(("a@x.com"), 200)], 200), some []⟩ folder400 allOk 20)
        ("a@x.com") = some 600
    ∧ (600 : Nat) ≠ 400 := by
  refine ⟨by decide, by decide, by decide, by omega⟩

/-- C2: the claim says a gave-up or fatal termination leaves the saved
checkpoint file on disk at program exit.  It does not: `scan_junk_mail`
saves progress and returns normally, and `main`'s cleanup (guarded only by
existence, not by success) then overwrites the results file and removes
the checkpoint file.  Evaluation at the failing inputs: with an all-busy
environment the loop gives up after writing one checkpoint, and with a
fatal environment it aborts after writing one checkpoint, yet in both
cases the checkpoint file is gone (`progress = none`) when `main`
finishes. -/
theorem C2_checkpoint_removed_after_failure :
    (scan_junk_mail [(("x@y.zz"), 3)] folder250 allBusy 20 100).map
        (fun r => (r.exit, r.saves.length)) = some (ExitReason.gaveUp, 1)
    ∧ mainFinalProgress
        (pyMain ⟨none, some [(("x@y.zz"), 3)]⟩ folder250 allBusy 20)
      = some none
    ∧ (scan_junk_mail [(("x@y.zz"), 3)] folder250 allFatal 20 100).map
        (fun r => (r.exit, r.saves.length)) = some (ExitReason.fatal, 1)
    ∧ mainFinalProgress
        (pyMain ⟨none, some [(("x@y.zz"), 3)]⟩ folder250 allFatal 20)
      = some none := by
  refine ⟨by decide, by decide, by decide, by decide⟩

/-- C3 counterexample: the scan loop key is `item.sender.email_address`
lowercased, taken directly — `extract_email_addresses` is never called on
the sender field.  For the sender string `A@B` the code increments the key
`a@b`, while the extractor finds no address in `A@B` at all, so the
incremented key cannot equal "the lowercased first extracted address". -/
theorem C3_counterexample :
    (procItem ⟨[], [], 0⟩ (Sender.ok ("A@B"))).email_count.get ("a@b") = 1
    ∧ extract_email_addresses ("A@B") = []
    ∧ ((extract_email_addresses ("A@B")).head?.map pyLower) = none := by
  refine ⟨by decide, by decide, by decide⟩

/-- C3 amended: for every item counted in the Paging state, the key
incremented in the FrequencyMap is the lowercased sender `email_address`
field taken directly (the AddressExtractor is not applied to it): the
count at the key `lower(s)` rises by exactly one and every other key is
unchanged. -/
theorem C3_amended_key :
    ∀ (st : ScanState) (s k : String),
      (procItem st (Sender.ok s)).email_count.get k
        = st.email_count.get k + (if pyLower s = k then 1 else 0) := by
  intro st s k
  rw [procItem_count]
  by_cases h : pyLower s = k <;> simp [keyMatches, h]

/-- C4: the claim says the cursor advances by one for every item of a
fetched page, including items whose per-item processing raises.  It does
not: `processed += 1` sits inside the `try` after the sender handling, so
a raising item leaves the cursor where it was.  Evaluation at the failing
input: a page `[ok a, malformed, ok b]` advances the cursor only to 2;
running the loop with page size 2 over that folder shows the consequence —
the slice misalignment re-fetches the trailing item, which is counted
twice (`b@x.com` ends at count 2 though it occurs once), while the loop
continues to a natural end rather than aborting. -/
theorem C4_malformed_item_not_counted :
    (procItems ⟨[], [], 0⟩ folderMal).processed = 2
    ∧ (2 : Nat) ≠ 3
    ∧ (scan_junk_mail [] folderMal allOk 10 2).map
        (fun r => (FreqMap.get r.final.email_count ("b@x.com"),
          r.final.processed, r.exit))
      = some (2, 3, ExitReason.natural) := by
  refine ⟨by decide, by omega, by decide⟩

/-- C5 counterexample: after exactly 5 consecutive `ErrorServerBusy`
failures with no intervening success, the engine does NOT give up: with
busy outcomes on attempts 0-4 it performs a sixth fetch and terminates
naturally on the empty folder, so the run's exit is `natural`, not
`gaveUp`. -/
theorem C5_counterexample :
    scan_junk_mail [] [] busyFive 10 100
      = some ⟨⟨[], [], 0⟩, [], ExitReason.natural⟩
    ∧ ExitReason.natural ≠ ExitReason.gaveUp := by
  refine ⟨by decide, by decide⟩

/-- C5 amended: the engine gives up only when the retry counter exceeds
`max_retries = 5`, i.e. on the 6th consecutive transient failure with no
intervening success (first conjunct: 6 consecutive busy outcomes from a
fresh counter end the run with `gaveUp`, state and cursor unchanged, after
one final progress save); and since every fully successful page fetch
resets the counter to 0, any streak of only 5 consecutive failures from a
fresh counter leaves the loop still running (second conjunct), so a later
streak after a success does not immediately give up. -/
theorem C5_amended_six_failures :
    (∀ (folder : List Sender) (bs : Nat) (sched : Nat → FetchOutcome)
      (t : Nat) (st : ScanState) (saves : List (FreqMap × Nat)) (f : Nat),
      (∀ i, i < 6 → sched (t + i) = .busy) →
      scanLoop folder bs sched (f + 6) t st 0 saves
        = some ⟨st, saves ++ [(st.email_count, st.processed)], .gaveUp⟩)
    ∧ (∀ (folder : List Sender) (bs : Nat) (sched : Nat → FetchOutcome)
      (t : Nat) (st : ScanState) (saves : List (FreqMap × Nat)) (f : Nat),
      (∀ i, i < 5 → sched (t + i) = .busy) →
      scanLoop folder bs sched (f + 6) t st 0 saves
        = scanLoop folder bs sched (f + 1) (t + 5) st 5 saves) := by
  constructor
  · intro folder bs sched t st saves f hb
    have h5 : ∀ i, i < 5 → sched (t + i) = .busy := fun i hi => hb i (by omega)
    have e : f + 6 = (f + 1) + 5 := by omega
    rw [e, scanLoop_busy_streak folder bs sched 5 (f + 1) t st 0 saves h5
      (by simp [max_retries])]
    exact scanLoop_busy_giveup folder bs sched f (t + 5) st (0 + 5) saves
      (hb 5 (by omega)) (by simp [max_retries])
  · intro folder bs sched t st saves f hb
    have e : f + 6 = (f + 1) + 5 := by omega
    rw [e, scanLoop_busy_streak folder bs sched 5 (f + 1) t st 0 saves hb
      (by simp [max_retries])]

/-- C5 witness: six consecutive busy outcomes from a fresh counter make
the concrete empty-folder run give up with one final progress save. -/
theorem C5_amended_witness :
    scanLoop [] 100 allBusy 6 0 ⟨[], [], 0⟩ 0 []
      = some ⟨⟨[], [], 0⟩, [([], 0)], ExitReason.gaveUp⟩ :=
  C5_amended_six_failures.1 [] 100 allBusy 0 ⟨[], [], 0⟩ [] 0 (fun _ _ => rfl)

/-- C6 counterexample: in the 250-item scenario (page size 100, one
transient failure on the first attempt at items 100-199, success on
retry), the `2 * pageSize` rule triggers exactly ONE checkpoint write (at
cursor 200), not two: the page boundaries reached are 100, 200 and 250,
of which only 200 is a multiple of 200. -/
theorem C6_counterexample :
    (scan_junk_mail [] folder250 schedC6 10 100).map (fun r => r.saves.length)
      = some 1
    ∧ (scan_junk_mail [] folder250 schedC6 10 100).map (fun r => r.saves.length)
      ≠ some 2 := by
  refine ⟨by decide, by decide⟩

/-- C6 amended: in that scenario the final processed cursor is 250, no
item is double-counted (the single sender's count is exactly 250), and
exactly one checkpoint write is triggered by the `2 * pageSize` rule,
namely at cursor 200. -/
theorem C6_amended :
    scan_junk_mail [] folder250 schedC6 10 100
      = some ⟨⟨[(("a@x.com"), 250)], ["a@x.com"], 250⟩,
          [([(("a@x.com"), 200)], 200)], ExitReason.natural⟩ := by
  decide

/-- C7 counterexample: the character class `[A-Z|a-z]` of the source
pattern contains the literal pipe, so `extract_email_addresses` returns
`x@y.ab|cd` for the input `x@y.ab|cd`, a string whose final label
`ab|cd` is not made of alphabetic characters only — no split of it
satisfies the claimed shape. -/
theorem C7_counterexample :
    extract_email_addresses ("x@y.ab|cd") = [("x@y.ab|cd")]
    ∧ specShapeAlpha (("x@y.ab|cd").data) = false := by
  refine ⟨by decide, by decide⟩

/-- C7 amended: every string returned by `extract_email_addresses` has the
shape `local@domain.tld` with a non-empty local part of
letters/digits/`._%+-`, a non-empty domain part of letters/digits/`.-`,
and a final label of 2 or more characters from the class `[A-Z|a-z]` —
alphabetic characters or the literal pipe `|` (which the source's
character class contains), rather than alphabetic characters only. -/
theorem C7_amended_shape :
    ∀ (text m : String), m ∈ extract_email_addresses text →
      EmailShape m.data := by
  intro text m hm
  unfold extract_email_addresses at hm
  rcases List.mem_map.mp hm with ⟨l, hl, rfl⟩
  exact findallAux_shape _ _ _ _ hl

/-- C7 witness: the extracted string `a@b.cd` has the amended shape. -/
theorem C7_amended_witness : EmailShape (("a@b.cd").data) :=
  C7_amended_shape ("Contact a@b.cd") ("a@b.cd") (by decide)

/-- C8 counterexample: the engine mutates the caller-supplied baseline
dict in place — after a one-item run the caller's mapping carries count 1
at the sender's key although the baseline it passed in had count 0 there,
so the caller's mapping object did not stay unchanged. -/
theorem C8_counterexample :
    (callerMapAfterScan [] [Sender.ok ("a@x.com")] allOk 3 100).map
        (fun m => FreqMap.get m ("a@x.com")) = some 1
    ∧ FreqMap.get [] ("a@x.com") = 0 := by
  refine ⟨by decide, by decide⟩

/-- C8 amended: `scan_junk_mail` works directly on the caller-supplied
mapping (no copy at start): after the run the caller's mapping object
holds the engine's final FrequencyMap, which is exactly the baseline plus
the counts of the items the run consumed. -/
theorem C8_amended_inplace :
    ∀ (baseline : FreqMap) (folder : List Sender) (sched : Nat → FetchOutcome)
      (fuel bs : Nat) (m : FreqMap),
      callerMapAfterScan baseline folder sched fuel bs = some m →
      ∃ consumed : List Sender, ∀ k,
        FreqMap.get m k
          = FreqMap.get baseline k
              + consumed.countP (fun it => keyMatches it k) := by
  intro baseline folder sched fuel bs m h
  unfold callerMapAfterScan scan_junk_mail at h
  cases hs : scanLoop folder bs sched fuel 0 ⟨baseline, [], 0⟩ 0 [] with
  | none =>
      rw [hs] at h
      simp at h
  | some res =>
      rw [hs] at h
      simp only [Option.map_some'] at h
      obtain ⟨consumed, hc⟩ :=
        scanLoop_consumed folder bs sched fuel 0 ⟨baseline, [], 0⟩ 0 [] res hs
      refine ⟨consumed, fun k => ?_⟩
      rw [← Option.some.inj h]
      exact hc k

/-- C8 witness: a concrete one-item run leaves the caller's mapping equal
to the empty baseline plus the consumed items' counts. -/
theorem C8_amended_witness :
    ∃ consumed : List Sender, ∀ k,
      FreqMap.get [(("a@x.com"), 1)] k
        = FreqMap.get [] k + consumed.countP (fun it => keyMatches it k) :=
  C8_amended_inplace [] [Sender.ok ("a@x.com")] allOk 3 100
    [(("a@x.com"), 1)] (by decide)

/-- C9: count monotonicity.  Every step of a run is a `procItem`
application, and each such step never decreases the count stored at any
key (first conjunct); consequently over any completed scan-loop run every
key's count is at least its starting value, and a key present (count
positive) at the start is still present at the end — the map never
shrinks (second conjunct). -/
theorem C9_monotone :
    (∀ (st : ScanState) (it : Sender) (k : String),
      st.email_count.get k ≤ (procItem st it).email_count.get k)
    ∧ (∀ (folder : List Sender) (bs : Nat) (sched : Nat → FetchOutcome)
        (fuel t : Nat) (st : ScanState) (retries : Nat)
        (saves : List (FreqMap × Nat)) (res : ScanResult),
        scanLoop folder bs sched fuel t st retries saves = some res →
        ∀ k, st.email_count.get k ≤ res.final.email_count.get k
          ∧ (0 < st.email_count.get k → 0 < res.final.email_count.get k)) := by
  constructor
  · intro st it k
    rw [procItem_count]
    omega
  · intro folder bs sched fuel t st retries saves res h k
    obtain ⟨consumed, hc⟩ :=
      scanLoop_consumed folder bs sched fuel t st retries saves res h
    have := hc k
    constructor <;> omega

/-- C9 witness: monotonicity applied to a concrete completed run. -/
theorem C9_monotone_witness :
    FreqMap.get [(("a@x.com"), 1)] ("a@x.com")
      ≤ FreqMap.get [(("a@x.com"), 1)] ("a@x.com")
    ∧ (0 < FreqMap.get [(("a@x.com"), 1)] ("a@x.com")
        → 0 < FreqMap.get [(("a@x.com"), 1)] ("a@x.com")) :=
  C9_monotone.2 [] 100 allOk 1 0 ⟨[(("a@x.com"), 1)], [], 0⟩ 0 []
    ⟨⟨[(("a@x.com"), 1)], [], 0⟩, [], ExitReason.natural⟩ rfl ("a@x.com")

/-- C10: if neither the checkpoint file nor the historical results file
exists at startup, `main` raises an unhandled file-not-found error while
opening `junk_email_addresses.json`, before any scanning: a genuinely
first run with no prior files fails regardless of folder contents or
server behaviour. -/
theorem C10_missing_files_error :
    ∀ (folder : List Sender) (sched : Nat → FetchOutcome) (fuel : Nat),
      pyMain ⟨none, none⟩ folder sched fuel = .error .fileNotFound :=
  fun _ _ _ => rfl

end JunkScan
